import Mathlib

/-! Verification of the data-access layer demonstrated by the python-database-mastery
notebooks: a four-table relational schema (users, orders, products, orderproducts)
managed through a `Repo` object offering upsert, point update, deletes governed by
the declared foreign-key actions, bulk insert, join queries and aggregation.

The embedding models each table as a list of rows and each repository method as a
pure function from a database state to a new database state, with `Except` for
statement failures (each Python method runs one statement and commits, so a failed
statement leaves the state unchanged). Timestamp columns are omitted: no claim
mentions them and they are server-generated. -/

/-- Row of the users table (src/05 lines 88-105): telegram_id is a client-supplied
BIGINT primary key; full_name and language_code are NOT NULL; user_name is nullable;
referrer_id is a nullable self-referential foreign key declared ON DELETE SET NULL. -/
structure UserRow where
  telegram_id : Int
  full_name : String
  user_name : Option String
  language_code : String
  referrer_id : Option Int
  deriving DecidableEq

/-- Row of the orders table (src/05 lines 108-115): order_id is a serial INTEGER
primary key; user_id is a foreign key to users.telegram_id, ON DELETE CASCADE. -/
structure OrderRow where
  order_id : Nat
  user_id : Int
  deriving DecidableEq

/-- Row of the products table (src/05 lines 118-127): product_id is a serial INTEGER
primary key; title NOT NULL; description nullable; price a DECIMAL, modelled as an
integer count of its fixed-point units (no claim computes with prices). -/
structure ProductRow where
  product_id : Nat
  title : String
  description : Option String
  price : Int
  deriving DecidableEq

/-- Row of the orderproducts association table (src/05 lines 130-139): composite
primary key of order_id (foreign key to orders, ON DELETE CASCADE) and product_id
(foreign key to products, ON DELETE RESTRICT), plus a NOT NULL quantity. -/
structure OrderProductRow where
  order_id : Nat
  product_id : Nat
  quantity : Int
  deriving DecidableEq

/-- Whole database state: the four tables plus the sequence counters backing the
serial order_id and product_id columns. -/
@[ext]
structure DB where
  users : List UserRow
  orders : List OrderRow
  products : List ProductRow
  order_products : List OrderProductRow
  next_order_id : Nat
  next_product_id : Nat
  deriving DecidableEq

/-- Kinds of statement failure surfaced to the caller (spec section 7: constraint
violations propagate unmodified). -/
inductive DbError where
  | fkViolation
  | restrictViolation
  | notNullViolation
  deriving DecidableEq

/-- State visible after a fallible statement that returns no rows: a failed
statement is rolled back, so the prior state is kept. -/
def stateAfter (db : DB) : Except DbError DB → DB
  | .ok db2 => db2
  | .error _ => db

/-- State visible after a fallible statement that also returns rows. -/
def stateAfterRet (db : DB) : Except DbError (DB × α) → DB
  | .ok (db2, _) => db2
  | .error _ => db

namespace Repo

/-- Check of the self-referential foreign key users.referrer_id on insert: absent,
or pointing at an existing user (the row being inserted itself included, since
PostgreSQL checks foreign keys at end of statement). -/
def referrerOk (users : List UserRow) (self : Int) : Option Int → Bool
  | none => true
  | some r => r == self || users.any (fun u => u.telegram_id == r)

/-- Repo.add_user of src/04 lines 373-399: INSERT .. ON CONFLICT (telegram_id)
DO UPDATE SET user_name, full_name .. RETURNING the resulting row. On conflict only
the two listed columns are overwritten; without conflict a full row is inserted,
subject to the referrer foreign key. -/
def add_user (db : DB) (telegram_id : Int) (full_name : String)
    (language_code : String) (user_name : Option String)
    (referrer_id : Option Int) : Except DbError (DB × UserRow) :=
  match db.users.find? (fun u => u.telegram_id == telegram_id) with
  | some old =>
      let updated : UserRow := { old with user_name := user_name, full_name := full_name }
      let users2 := db.users.map fun u =>
        if u.telegram_id == telegram_id then
          { u with user_name := user_name, full_name := full_name }
        else u
      .ok ({ db with users := users2 }, updated)
  | none =>
      if referrerOk db.users telegram_id referrer_id then
        let row : UserRow :=
          { telegram_id := telegram_id, full_name := full_name, user_name := user_name,
            language_code := language_code, referrer_id := referrer_id }
        .ok ({ db with users := db.users ++ [row] }, row)
      else .error .fkViolation

/-- Repo.set_new_referrer of src/05 lines 473-482: UPDATE users SET referrer_id
WHERE telegram_id = user_id RETURNING, then scalars().first(). When no row matches,
nothing is updated and the returned value is absent; when a row matches, the new
referrer_id must satisfy the users foreign key, and the updated row is returned. -/
def set_new_referrer (db : DB) (user_id : Int) (referrer_id : Int) :
    Except DbError (DB × Option UserRow) :=
  if db.users.any (fun u => u.telegram_id == user_id) then
    if db.users.any (fun u => u.telegram_id == referrer_id) then
      let users2 := db.users.map fun u =>
        if u.telegram_id == user_id then { u with referrer_id := some referrer_id } else u
      .ok ({ db with users := users2 },
           (users2.filter (fun u => u.telegram_id == user_id)).head?)
    else .error .fkViolation
  else .ok (db, none)

/-- Repo.delete_user_by_id of src/05 lines 484-487: DELETE FROM users WHERE
telegram_id = user_id, together with the declared ON DELETE actions of the schema:
users.referrer_id is SET NULL, orders.user_id is CASCADE, and the cascaded order
deletions in turn CASCADE to orderproducts.order_id. Always succeeds. -/
def delete_user_by_id (db : DB) (user_id : Int) : DB :=
  { db with
    users := (db.users.filter (fun u => !(u.telegram_id == user_id))).map fun u =>
      if u.referrer_id == some user_id then { u with referrer_id := none } else u,
    orders := db.orders.filter (fun o => !(o.user_id == user_id)),
    order_products := db.order_products.filter fun op =>
      !(db.orders.any fun o => o.user_id == user_id && o.order_id == op.order_id) }

/-- DELETE FROM orders WHERE order_id = oid under the schema of src/05 lines
130-139: orderproducts.order_id is declared ON DELETE CASCADE, so the line items
of the order are removed with it. -/
def delete_order (db : DB) (oid : Nat) : DB :=
  { db with
    orders := db.orders.filter (fun o => !(o.order_id == oid)),
    order_products := db.order_products.filter (fun op => !(op.order_id == oid)) }

/-- DELETE FROM products WHERE product_id = pid under the schema of src/05 lines
130-139: orderproducts.product_id is declared ON DELETE RESTRICT, so the delete is
rejected while any line item references the product. -/
def delete_product (db : DB) (pid : Nat) : Except DbError DB :=
  if db.order_products.any (fun op => op.product_id == pid) then
    .error .restrictViolation
  else
    .ok { db with products := db.products.filter (fun p => !(p.product_id == pid)) }

/-- One record of the executemany payload of Repo.add_bulk_products: a dict with
title, description and price keys whose values may be absent or NULL. -/
structure ProductInput where
  title : Option String
  description : Option String
  price : Option Int
  deriving DecidableEq

/-- Repo.add_bulk_products of src/05 lines 502-515: one INSERT .. RETURNING executed
with a list of parameter records and a single commit, so the whole batch is one
transaction. The NOT NULL columns title and price reject an absent value, failing
the entire statement; otherwise every row is inserted with consecutive serial ids
and the full sequence of created rows is returned. -/
def add_bulk_products (db : DB) (products : List ProductInput) :
    Except DbError (DB × List ProductRow) :=
  if products.all (fun r => r.title.isSome && r.price.isSome) then
    let rows : List ProductRow := products.enum.map fun ir =>
      { product_id := db.next_product_id + ir.1, title := ir.2.title.getD "",
        description := ir.2.description, price := ir.2.price.getD 0 }
    .ok ({ db with
           products := db.products ++ rows,
           next_product_id := db.next_product_id + products.length }, rows)
  else .error .notNullViolation

end Repo

/-- Result row shape of the two join queries of src/04 lines 671-692: the full
Product row, the full Order row, User.user_name and OrderProducts.quantity. -/
abbrev JoinResultRow := ProductRow × OrderRow × Option String × Int

namespace Repo

/-- Repo.get_all_user_orders_relationships of src/04 lines 671-680: the inner join
users-orders-orderproducts-products over the relationship join conditions, filtered
on User.telegram_id, enumerated in the order the relationship joins are written. -/
def get_all_user_orders_relationships (db : DB) (telegram_id : Int) :
    List JoinResultRow :=
  db.users.flatMap fun u =>
    db.orders.flatMap fun o =>
      db.order_products.flatMap fun op =>
        db.products.flatMap fun p =>
          if u.telegram_id = telegram_id ∧ o.user_id = u.telegram_id ∧
              op.order_id = o.order_id ∧ p.product_id = op.product_id then
            [(p, o, u.user_name, op.quantity)]
          else []

/-- Repo.get_all_user_orders_no_relationships of src/04 lines 682-692: the same
four-table inner join written without relationships, SELECT .. FROM products JOIN
orderproducts JOIN orders JOIN users, filtered on User.telegram_id. -/
def get_all_user_orders_no_relationships (db : DB) (telegram_id : Int) :
    List JoinResultRow :=
  db.products.flatMap fun p =>
    db.order_products.flatMap fun op =>
      db.orders.flatMap fun o =>
        db.users.flatMap fun u =>
          if p.product_id = op.product_id ∧ op.order_id = o.order_id ∧
              o.user_id = u.telegram_id ∧ u.telegram_id = telegram_id then
            [(p, o, u.user_name, op.quantity)]
          else []

/-- Line items reaching a given user through the join of src/04 lines 764-773:
orderproducts JOIN orders ON orders.order_id = orderproducts.order_id JOIN users,
restricted to the group keyed by the primary key User.telegram_id. -/
def userJoinRows (db : DB) (u : UserRow) : List OrderProductRow :=
  db.order_products.filter fun op =>
    db.orders.any fun o => o.order_id == op.order_id && o.user_id == u.telegram_id

/-- Sum of the quantity column over a list of line items. -/
def sumQuantity (rows : List OrderProductRow) : Int :=
  (rows.map OrderProductRow.quantity).sum

/-- Repo.get_count_of_products_greater_than_x_by_user of src/04 lines 764-773:
SELECT sum(quantity), full_name FROM orderproducts JOIN orders JOIN users GROUP BY
users.telegram_id HAVING sum(quantity) > greater_than. Grouping on the primary key
of users makes the groups exactly the users having at least one joined line item;
HAVING filters the groups after aggregation. -/
def get_count_of_products_greater_than_x_by_user (db : DB) (greater_than : Int) :
    List (Int × String) :=
  db.users.flatMap fun u =>
    if 0 < (userJoinRows db u).length ∧
        greater_than < sumQuantity (userJoinRows db u) then
      [(sumQuantity (userJoinRows db u), u.full_name)]
    else []

end Repo

/-- Python str.lower restricted to the ASCII class names used here: lowercase
every character. -/
def pyLower (s : String) : String := ⟨s.data.map Char.toLower⟩

/-- TableNameMixin table-name derivation as defined in src/02 lines 301-305,
src/04 lines 81-84, src/05 lines 82-85 and src/06 lines 88-91: the class name
lowercased with the suffix "s" appended. -/
def tablename_mixin_suffixed (className : String) : String :=
  pyLower className ++ "s"

/-- TableNameMixin table-name derivation as defined in
src/alembic_for_database_management_03.py lines 74-77: the class name lowercased,
with no suffix appended. -/
def tablename_mixin_alembic (className : String) : String :=
  pyLower className

/-- Example user A, referrer of user B. -/
def userA : UserRow :=
  { telegram_id := 1, full_name := "Alice", user_name := some "alice",
    language_code := "en", referrer_id := none }

/-- Example user B, referred by user A. -/
def userB : UserRow :=
  { telegram_id := 2, full_name := "Bob", user_name := some "bob",
    language_code := "en", referrer_id := some 1 }

/-- Example order owned by user B. -/
def orderB : OrderRow := { order_id := 1, user_id := 2 }

/-- Example product. -/
def productP : ProductRow :=
  { product_id := 1, title := "tea", description := none, price := 5 }

/-- Example line item putting the product on order 1. -/
def lineBP : OrderProductRow := { order_id := 1, product_id := 1, quantity := 3 }

/-- Example database holding the rows above. -/
def dbEx : DB :=
  { users := [userA, userB], orders := [orderB], products := [productP],
    order_products := [lineBP], next_order_id := 2, next_product_id := 2 }

/-- State of dbEx after a first upsert call on user 1 with full_name X and
user_name x: the conflict branch overwrites exactly those two columns. -/
def dbC1mid : DB :=
  { dbEx with
    users := [{ telegram_id := 1, full_name := "X", user_name := some "x",
                language_code := "en", referrer_id := none }, userB] }

/-- Example database with a single user and no orders or line items, used to
exercise the aggregation query at a negative threshold. -/
def dbC5 : DB :=
  { users := [userA], orders := [], products := [], order_products := [],
    next_order_id := 1, next_product_id := 1 }

/-- Bulk-insert record carrying both NOT NULL columns. -/
def inputGood : Repo.ProductInput :=
  { title := some "mate", description := none, price := some 4 }

/-- Bulk-insert record with a NULL title, violating the NOT NULL constraint. -/
def inputBad : Repo.ProductInput :=
  { title := none, description := none, price := some 4 }

/-! Helper lemmas shared by the claim theorems. -/

/-- Mapping a function that fixes every member of a list is the identity. -/
theorem map_fix_eq_self {α : Type} {l : List α} {f : α → α} (h : ∀ a ∈ l, f a = a) :
    l.map f = l := by
  induction l with
  | nil => rfl
  | cons a t ih =>
      simp only [List.map_cons, h a (List.mem_cons_self a t)]
      exact congrArg _ (ih fun b hb => h b (List.mem_cons_of_mem a hb))

/-- In a user table whose telegram_id column is duplicate-free, a member is
counted exactly once by its primary key. -/
theorem countP_pk_one {l : List UserRow} (hn : (l.map UserRow.telegram_id).Nodup)
    {u : UserRow} (hu : u ∈ l) :
    l.countP (fun v => v.telegram_id == u.telegram_id) = 1 := by
  have h1 : l.countP (fun v => v.telegram_id == u.telegram_id) =
      List.count u.telegram_id (l.map UserRow.telegram_id) := by
    rw [List.count, List.countP_map]
    rfl
  have h2 : List.count u.telegram_id (l.map UserRow.telegram_id) ≤ 1 :=
    List.nodup_iff_count_le_one.mp hn _
  have h3 : 0 < List.count u.telegram_id (l.map UserRow.telegram_id) :=
    List.count_pos_iff.mpr (List.mem_map.mpr ⟨u, hu, rfl⟩)
  omega

/-- In a user table whose telegram_id column is duplicate-free, the first row
found by primary key is the unique member carrying that key. -/
theorem find?_pk {l : List UserRow} (hn : (l.map UserRow.telegram_id).Nodup)
    {u : UserRow} (hu : u ∈ l) {tid : Int} (hid : u.telegram_id = tid) :
    l.find? (fun v => v.telegram_id == tid) = some u := by
  cases hfind : l.find? (fun v => v.telegram_id == tid) with
  | none => exact absurd (List.find?_eq_none.mp hfind u hu) (by simp [hid])
  | some w =>
      have hw : w.telegram_id = tid := by simpa using List.find?_some hfind
      have hwm : w ∈ l := List.mem_of_find?_eq_some hfind
      have : w = u := List.inj_on_of_nodup_map hn hwm hu (by rw [hw, hid])
      rw [this]

/-- Mapping a function of the payload over an enumerated list ignores the
indices. -/
theorem enum_map_snd_comp {α β : Type} (l : List α) (g : α → β) :
    l.enum.map (g ∘ Prod.snd) = l.map g := by
  rw [← List.map_map, List.enum_map_snd]

/-- C10: the claim that every file derives table names as the class name
lowercased plus the suffix s fails on the alembic notebook, whose mixin omits the
suffix: on the class name Orders it produces orders, not the claimed orderss,
and so differs from the derivation of the other notebooks. -/
theorem tablename_mixin_not_uniform :
    tablename_mixin_alembic "Orders" = "orders" ∧
    tablename_mixin_alembic "Orders" ≠ "orderss" ∧
    tablename_mixin_suffixed "Orders" = "orderss" := by
  refine ⟨by decide, by decide, by decide⟩

/-- C10 (amended): each mixin derives the table name as a deterministic pure
function of the class name, but the function is not identical across all files:
notebooks 02, 04, 05 and 06 lowercase the class name and append the suffix s
(so class User maps to users, class Orders of notebook 02 to orderss and class
OrderProducts to orderproductss), while the alembic notebook lowercases the class
name with no suffix (so class Users maps to users and class OrderProducts to
orderproducts); on every class name the suffixed derivation equals the alembic
derivation with s appended, and on the shared class name OrderProducts the two
derivations disagree. -/
theorem tablename_mixin_characterization :
    (∀ s : String, tablename_mixin_suffixed s = tablename_mixin_alembic s ++ "s") ∧
    tablename_mixin_suffixed "User" = "users" ∧
    tablename_mixin_suffixed "Orders" = "orderss" ∧
    tablename_mixin_suffixed "OrderProducts" = "orderproductss" ∧
    tablename_mixin_alembic "Users" = "users" ∧
    tablename_mixin_alembic "OrderProducts" = "orderproducts" ∧
    tablename_mixin_suffixed "OrderProducts" ≠
      tablename_mixin_alembic "OrderProducts" := by
  exact ⟨fun s => rfl, by decide, by decide, by decide, by decide, by decide,
    by decide⟩

/-- C3: deleting an order removes exactly the line items of that order, leaving
all other rows in place, while deleting a product still referenced by some line
item fails with the restrict violation and leaves every row of every table
unchanged. -/
theorem delete_order_cascade_delete_product_restrict (db : DB) (oid pid : Nat)
    (href : ∃ op ∈ db.order_products, op.product_id = pid) :
    (∀ op ∈ (Repo.delete_order db oid).order_products, op.order_id ≠ oid) ∧
    (∀ op ∈ db.order_products, op.order_id ≠ oid →
      op ∈ (Repo.delete_order db oid).order_products) ∧
    (∀ o ∈ (Repo.delete_order db oid).orders, o.order_id ≠ oid) ∧
    (∀ o ∈ db.orders, o.order_id ≠ oid → o ∈ (Repo.delete_order db oid).orders) ∧
    (Repo.delete_order db oid).users = db.users ∧
    (Repo.delete_order db oid).products = db.products ∧
    Repo.delete_product db pid = .error .restrictViolation ∧
    stateAfter db (Repo.delete_product db pid) = db := by
  have hany : (db.order_products.any fun op => op.product_id == pid) = true := by
    rw [List.any_eq_true]
    obtain ⟨op0, h0, h1⟩ := href
    exact ⟨op0, h0, by simp [h1]⟩
  refine ⟨?_, ?_, ?_, ?_, rfl, rfl, ?_, ?_⟩
  · intro op hop
    simp only [Repo.delete_order] at hop
    simpa using List.of_mem_filter hop
  · intro op hop hne
    simp only [Repo.delete_order]
    exact List.mem_filter.mpr ⟨hop, by simpa using hne⟩
  · intro o ho
    simp only [Repo.delete_order] at ho
    simpa using List.of_mem_filter ho
  · intro o ho hne
    simp only [Repo.delete_order]
    exact List.mem_filter.mpr ⟨ho, by simpa using hne⟩
  · simp [Repo.delete_product, hany]
  · simp [Repo.delete_product, hany, stateAfter]

/-- C3 witness: in the example database, line item 1 references product 1, so
deleting product 1 is rejected with the restrict violation. -/
theorem delete_order_cascade_delete_product_restrict_witness :
    (∃ op ∈ dbEx.order_products, op.product_id = 1) ∧
    Repo.delete_product dbEx 1 = .error .restrictViolation ∧
    stateAfter dbEx (Repo.delete_product dbEx 1) = dbEx := by
  have h := delete_order_cascade_delete_product_restrict dbEx 1 1 (by decide)
  exact ⟨by decide, h.2.2.2.2.2.2.1, h.2.2.2.2.2.2.2⟩

/-- C7: add_bulk_products is all-or-nothing within its single transaction: when
every record carries its NOT NULL columns the call succeeds, appends exactly one
product row per record and returns the full sequence of created rows in input
order; when any record misses a NOT NULL column the whole statement fails and the
resulting state keeps every table unchanged. -/
theorem add_bulk_products_all_or_nothing (db : DB) (ps : List Repo.ProductInput) :
    ((∀ r ∈ ps, r.title.isSome ∧ r.price.isSome) →
      ∃ rows, Repo.add_bulk_products db ps = .ok
          ({ db with
             products := db.products ++ rows,
             next_product_id := db.next_product_id + ps.length }, rows) ∧
        rows.length = ps.length ∧
        rows.map ProductRow.title = ps.map (fun r => r.title.getD "") ∧
        rows.map ProductRow.description = ps.map Repo.ProductInput.description ∧
        rows.map ProductRow.price = ps.map (fun r => r.price.getD 0)) ∧
    ((∃ r ∈ ps, r.title.isSome = false ∨ r.price.isSome = false) →
      Repo.add_bulk_products db ps = .error .notNullViolation ∧
      stateAfterRet db (Repo.add_bulk_products db ps) = db) := by
  constructor
  · intro hval
    have hall : (ps.all fun r => r.title.isSome && r.price.isSome) = true := by
      rw [List.all_eq_true]
      intro r hr
      have h := hval r hr
      simp [h.1, h.2]
    refine ⟨ps.enum.map fun ir =>
      { product_id := db.next_product_id + ir.1, title := ir.2.title.getD "",
        description := ir.2.description, price := ir.2.price.getD 0 }, ?_, ?_, ?_, ?_, ?_⟩
    · simp [Repo.add_bulk_products, hall]
    · simp [List.enum_length]
    · rw [List.map_map]
      exact enum_map_snd_comp ps fun r => r.title.getD ""
    · rw [List.map_map]
      exact enum_map_snd_comp ps Repo.ProductInput.description
    · rw [List.map_map]
      exact enum_map_snd_comp ps fun r => r.price.getD 0
  · intro hbad
    have hall : (ps.all fun r => r.title.isSome && r.price.isSome) = false := by
      rw [List.all_eq_false]
      obtain ⟨r, hr, h⟩ := hbad
      refine ⟨r, hr, ?_⟩
      rcases h with h | h <;> simp [h]
    constructor
    · simp [Repo.add_bulk_products, hall]
    · simp [Repo.add_bulk_products, hall, stateAfterRet]

/-- C7 witness: a valid one-record batch on the example database succeeds and
returns the created row, while a batch whose only record has a NULL title fails
and leaves the state unchanged. -/
theorem add_bulk_products_all_or_nothing_witness :
    (∃ rows, Repo.add_bulk_products dbEx [inputGood] = .ok
        ({ dbEx with
           products := dbEx.products ++ rows,
           next_product_id := dbEx.next_product_id + [inputGood].length }, rows) ∧
      rows.length = [inputGood].length ∧
      rows.map ProductRow.title = [inputGood].map (fun r => r.title.getD "") ∧
      rows.map ProductRow.description =
        [inputGood].map Repo.ProductInput.description ∧
      rows.map ProductRow.price = [inputGood].map (fun r => r.price.getD 0)) ∧
    (Repo.add_bulk_products dbEx [inputBad] = .error .notNullViolation ∧
    stateAfterRet dbEx (Repo.add_bulk_products dbEx [inputBad]) = dbEx) := by
  constructor
  · exact (add_bulk_products_all_or_nothing dbEx [inputGood]).1 (by decide)
  · exact (add_bulk_products_all_or_nothing dbEx [inputBad]).2
      ⟨inputBad, List.mem_singleton.mpr rfl, Or.inl (by decide)⟩

/-- In a user table whose telegram_id column is duplicate-free, filtering by the
primary key of a member yields exactly that member. -/
theorem filter_pk {l : List UserRow} (hn : (l.map UserRow.telegram_id).Nodup)
    {u : UserRow} (hu : u ∈ l) {tid : Int} (hid : u.telegram_id = tid) :
    l.filter (fun v => v.telegram_id == tid) = [u] := by
  have hlen : (l.filter (fun v => v.telegram_id == tid)).length = 1 := by
    rw [← List.countP_eq_length_filter]
    subst hid
    exact countP_pk_one hn hu
  obtain ⟨a, ha⟩ := List.length_eq_one.mp hlen
  have humem : u ∈ l.filter (fun v => v.telegram_id == tid) :=
    List.mem_filter.mpr ⟨hu, by simp [hid]⟩
  rw [ha] at humem
  rw [ha, List.mem_singleton.mp humem]

/-- C6: set_new_referrer distinguishes the two outcomes of the point update: when
no user carries user_id, zero rows are affected, the database is unchanged and the
returned row is absent; when a user carries user_id and the new referrer exists,
the updated row, with its referrer set, is returned. -/
theorem set_new_referrer_zero_rows_vs_success (db : DB) (user_id referrer_id : Int)
    (hnodup : (db.users.map UserRow.telegram_id).Nodup) :
    ((∀ u ∈ db.users, u.telegram_id ≠ user_id) →
      Repo.set_new_referrer db user_id referrer_id = .ok (db, none)) ∧
    (∀ u ∈ db.users, u.telegram_id = user_id →
      (∃ v ∈ db.users, v.telegram_id = referrer_id) →
      ∃ db2, Repo.set_new_referrer db user_id referrer_id =
        .ok (db2, some { u with referrer_id := some referrer_id })) := by
  constructor
  · intro habs
    have hany : (db.users.any fun u => u.telegram_id == user_id) = false :=
      List.any_eq_false.mpr fun u hu => by simp [habs u hu]
    simp [Repo.set_new_referrer, hany]
  · intro u hu hid hrefex
    have hany1 : (db.users.any fun v => v.telegram_id == user_id) = true :=
      List.any_eq_true.mpr ⟨u, hu, by simp [hid]⟩
    obtain ⟨v, hv, hvid⟩ := hrefex
    have hany2 : (db.users.any fun w => w.telegram_id == referrer_id) = true :=
      List.any_eq_true.mpr ⟨v, hv, by simp [hvid]⟩
    refine ⟨{ db with users := db.users.map fun w =>
      if w.telegram_id == user_id then { w with referrer_id := some referrer_id }
      else w }, ?_⟩
    simp only [Repo.set_new_referrer, hany1, hany2, if_true]
    have hfm : (db.users.map fun w =>
        if w.telegram_id == user_id then { w with referrer_id := some referrer_id }
        else w).filter (fun w => w.telegram_id == user_id) =
        [{ u with referrer_id := some referrer_id }] := by
      rw [List.filter_map, List.filter_congr (q := fun w => w.telegram_id == user_id)
        (fun w _ => by by_cases h : w.telegram_id == user_id <;> simp [Function.comp, h]),
        filter_pk hnodup hu hid]
      simp [hid]
    rw [hfm]
    rfl

/-- C6 witness: in the example database, updating the referrer of the absent user
99 returns an absent row with the state unchanged, while updating the referrer of
user 1 to user 2 returns the updated row. -/
theorem set_new_referrer_zero_rows_vs_success_witness :
    Repo.set_new_referrer dbEx 99 1 = .ok (dbEx, none) ∧
    ∃ db2, Repo.set_new_referrer dbEx 1 2 =
      .ok (db2, some { userA with referrer_id := some 2 }) := by
  constructor
  · exact (set_new_referrer_zero_rows_vs_success dbEx 99 1 (by decide)).1 (by decide)
  · exact (set_new_referrer_zero_rows_vs_success dbEx 1 2 (by decide)).2 userA
      (by decide) (by decide) ⟨userB, by decide, by decide⟩

/-- C8: delete_user_by_id is idempotent: under the schema invariants (orders and
referrer links point at existing users), deleting an id carried by no user row is
not an error and leaves the state unchanged, and deleting the same id twice, from
any state, yields the same state as deleting it once. -/
theorem delete_user_by_id_idempotent (db : DB) (uid : Int)
    (habs : ∀ u ∈ db.users, u.telegram_id ≠ uid)
    (horders : ∀ o ∈ db.orders, ∃ u ∈ db.users, u.telegram_id = o.user_id)
    (href : ∀ u ∈ db.users, ∀ r : Int, u.referrer_id = some r →
      ∃ v ∈ db.users, v.telegram_id = r) :
    Repo.delete_user_by_id db uid = db ∧
    ∀ (db2 : DB) (uid2 : Int),
      Repo.delete_user_by_id (Repo.delete_user_by_id db2 uid2) uid2 =
        Repo.delete_user_by_id db2 uid2 := by
  constructor
  · have hfu : db.users.filter (fun u => !(u.telegram_id == uid)) = db.users :=
      List.filter_eq_self.mpr fun u hu => by simp [habs u hu]
    have hmu : ∀ u ∈ db.users,
        (if u.referrer_id == some uid then { u with referrer_id := none } else u) = u := by
      intro u hu
      have hne : ¬(u.referrer_id == some uid) = true := by
        intro h
        obtain ⟨v, hv, hvid⟩ := href u hu uid (by simpa using h)
        exact habs v hv hvid
      simp [hne]
    have ho : db.orders.filter (fun o => !(o.user_id == uid)) = db.orders :=
      List.filter_eq_self.mpr fun o hoo => by
        obtain ⟨v, hv, hvid⟩ := horders o hoo
        have : o.user_id ≠ uid := fun hcon => habs v hv (hvid.trans hcon)
        simp [this]
    have hop : db.order_products.filter (fun op =>
        !(db.orders.any fun o => o.user_id == uid && o.order_id == op.order_id)) =
        db.order_products := by
      refine List.filter_eq_self.mpr fun op _ => ?_
      have : (db.orders.any fun o => o.user_id == uid && o.order_id == op.order_id) =
          false := by
        refine List.any_eq_false.mpr fun o hoo h => ?_
        obtain ⟨v, hv, hvid⟩ := horders o hoo
        have huid : o.user_id = uid := by
          have := (Bool.and_eq_true _ _).mp h
          simpa using this.1
        exact habs v hv (hvid.trans huid)
      simp [this]
    simp only [Repo.delete_user_by_id]
    rw [hfu, map_fix_eq_self hmu, ho, hop]
  · intro db2 uid2
    have hu1 : ∀ u ∈ (Repo.delete_user_by_id db2 uid2).users,
        u.telegram_id ≠ uid2 ∧ u.referrer_id ≠ some uid2 := by
      intro u hu
      simp only [Repo.delete_user_by_id] at hu
      obtain ⟨w, hw, hwu⟩ := List.mem_map.mp hu
      have hwid : ¬(w.telegram_id == uid2) = true := by
        simpa using List.of_mem_filter hw
      constructor
      · intro hcon
        apply hwid
        have : u.telegram_id = w.telegram_id := by
          rw [← hwu]
          by_cases h : w.referrer_id == some uid2 <;> simp [h]
        simp [← this, hcon]
      · intro hcon
        rw [← hwu] at hcon
        by_cases h : w.referrer_id == some uid2
        · simp [h] at hcon
        · rw [if_neg h] at hcon
          exact h (by simp [hcon])
    have ho1 : ∀ o ∈ (Repo.delete_user_by_id db2 uid2).orders, o.user_id ≠ uid2 := by
      intro o hoo
      simp only [Repo.delete_user_by_id] at hoo
      simpa using List.of_mem_filter hoo
    have hfu : (Repo.delete_user_by_id db2 uid2).users.filter
        (fun u => !(u.telegram_id == uid2)) = (Repo.delete_user_by_id db2 uid2).users :=
      List.filter_eq_self.mpr fun u hu => by simp [(hu1 u hu).1]
    have hmu : ∀ u ∈ (Repo.delete_user_by_id db2 uid2).users,
        (if u.referrer_id == some uid2 then { u with referrer_id := none } else u) = u := by
      intro u hu
      have : ¬(u.referrer_id == some uid2) = true := by simp [(hu1 u hu).2]
      simp [this]
    have ho : (Repo.delete_user_by_id db2 uid2).orders.filter
        (fun o => !(o.user_id == uid2)) = (Repo.delete_user_by_id db2 uid2).orders :=
      List.filter_eq_self.mpr fun o hoo => by simp [ho1 o hoo]
    have hop : (Repo.delete_user_by_id db2 uid2).order_products.filter (fun op =>
        !((Repo.delete_user_by_id db2 uid2).orders.any fun o =>
          o.user_id == uid2 && o.order_id == op.order_id)) =
        (Repo.delete_user_by_id db2 uid2).order_products := by
      refine List.filter_eq_self.mpr fun op _ => ?_
      have : ((Repo.delete_user_by_id db2 uid2).orders.any fun o =>
          o.user_id == uid2 && o.order_id == op.order_id) = false := by
        refine List.any_eq_false.mpr fun o hoo h => ?_
        have huid : o.user_id = uid2 := by
          have := (Bool.and_eq_true _ _).mp h
          simpa using this.1
        exact ho1 o hoo huid
      simp [this]
    conv_lhs => rw [Repo.delete_user_by_id]
    rw [hfu, map_fix_eq_self hmu, ho, hop]

/-- C8 witness: in the example database, deleting the absent id 99 changes
nothing, and deleting user 1 twice equals deleting user 1 once. -/
theorem delete_user_by_id_idempotent_witness :
    Repo.delete_user_by_id dbEx 99 = dbEx ∧
    Repo.delete_user_by_id (Repo.delete_user_by_id dbEx 1) 1 =
      Repo.delete_user_by_id dbEx 1 := by
  have h := delete_user_by_id_idempotent dbEx 99 (by decide) (by decide) (by decide)
  exact ⟨h.1, h.2 dbEx 1⟩

/-- C2: when user B refers to user A, deleting A keeps the row of B (only its
referrer link is set to absent), keeps every order of B, keeps every line item of
an order of B (given the order_id primary key is duplicate-free), and leaves the
products table untouched. -/
theorem delete_user_nulls_referrer (db : DB) (A B : UserRow)
    (_hA : A ∈ db.users) (hB : B ∈ db.users)
    (href : B.referrer_id = some A.telegram_id)
    (hne : B.telegram_id ≠ A.telegram_id)
    (hnodupOrders : (db.orders.map OrderRow.order_id).Nodup) :
    { B with referrer_id := none } ∈ (Repo.delete_user_by_id db A.telegram_id).users ∧
    (∀ o ∈ db.orders, o.user_id = B.telegram_id →
      o ∈ (Repo.delete_user_by_id db A.telegram_id).orders) ∧
    (∀ op ∈ db.order_products, ∀ o ∈ db.orders, o.order_id = op.order_id →
      o.user_id = B.telegram_id →
      op ∈ (Repo.delete_user_by_id db A.telegram_id).order_products) ∧
    (Repo.delete_user_by_id db A.telegram_id).products = db.products := by
  refine ⟨?_, ?_, ?_, rfl⟩
  · simp only [Repo.delete_user_by_id]
    refine List.mem_map.mpr ⟨B, List.mem_filter.mpr ⟨hB, by simp [hne]⟩, ?_⟩
    simp [href]
  · intro o ho houser
    simp only [Repo.delete_user_by_id]
    refine List.mem_filter.mpr ⟨ho, ?_⟩
    rw [houser]
    simp [hne]
  · intro op hop o ho hoid houser
    simp only [Repo.delete_user_by_id]
    refine List.mem_filter.mpr ⟨hop, ?_⟩
    have hany : (db.orders.any fun o2 =>
        o2.user_id == A.telegram_id && o2.order_id == op.order_id) = false := by
      refine List.any_eq_false.mpr fun o2 ho2 h => ?_
      have h2 := (Bool.and_eq_true _ _).mp h
      have huser2 : o2.user_id = A.telegram_id := by simpa using h2.1
      have hoid2 : o2.order_id = op.order_id := by simpa using h2.2
      have : o2 = o :=
        List.inj_on_of_nodup_map hnodupOrders ho2 ho (hoid2.trans hoid.symm)
      rw [this] at huser2
      exact hne (houser ▸ huser2.symm ▸ rfl)
    simp [hany]

/-- C2 witness: deleting user 1 of the example database nulls the referrer of
user 2 while keeping the row of user 2, the order of user 2 and its line item. -/
theorem delete_user_nulls_referrer_witness :
    { userB with referrer_id := none } ∈
      (Repo.delete_user_by_id dbEx userA.telegram_id).users ∧
    orderB ∈ (Repo.delete_user_by_id dbEx userA.telegram_id).orders ∧
    lineBP ∈ (Repo.delete_user_by_id dbEx userA.telegram_id).order_products := by
  have h := delete_user_nulls_referrer dbEx userA userB (by decide) (by decide)
    (by decide) (by decide) (by decide)
  exact ⟨h.1, h.2.1 orderB (by decide) (by decide),
    h.2.2.1 lineBP (by decide) orderB (by decide) (by decide) (by decide)⟩

/-- Mapping a telegram_id-preserving function over a user table leaves the
telegram_id column unchanged. -/
theorem map_pk_ids {l : List UserRow} {f : UserRow → UserRow}
    (hf : ∀ u ∈ l, (f u).telegram_id = u.telegram_id) :
    (l.map f).map UserRow.telegram_id = l.map UserRow.telegram_id := by
  rw [List.map_map]
  exact List.map_congr_left fun u hu => hf u hu

/-- Mapping a telegram_id-preserving function over a user table preserves the
count of rows carrying a given primary key. -/
theorem countP_pk_map {l : List UserRow} {f : UserRow → UserRow}
    (hf : ∀ u ∈ l, (f u).telegram_id = u.telegram_id) (tid : Int) :
    (l.map f).countP (fun u => u.telegram_id == tid) =
      l.countP (fun u => u.telegram_id == tid) := by
  rw [List.countP_map]
  exact List.countP_congr fun u hu => by simp [Function.comp, hf u hu]

/-- The conflict-branch update of add_user preserves every primary key. -/
theorem upsert_preserves_pk (tid : Int) (un : Option String) (fn : String)
    (l : List UserRow) :
    ∀ u ∈ l, ((fun u => if u.telegram_id == tid then
        { u with user_name := un, full_name := fn } else u) u).telegram_id =
      u.telegram_id := by
  intro u _
  by_cases h : u.telegram_id == tid <;> simp [h]

/-- C1: after any successful add_user call on a duplicate-free user table, a
second add_user call with the same primary key does not fail: it succeeds,
returns the resulting row, whose mutable columns carry the second call's
full_name and user_name, that row is in the table, and exactly one row with that
primary key exists afterwards. -/
theorem add_user_upsert_second_call (db : DB) (tid : Int)
    (fn1 lc1 : String) (un1 : Option String) (r1 : Option Int)
    (db1 : DB) (row1 : UserRow)
    (fn2 lc2 : String) (un2 : Option String) (r2 : Option Int)
    (hnodup : (db.users.map UserRow.telegram_id).Nodup)
    (h1 : Repo.add_user db tid fn1 lc1 un1 r1 = .ok (db1, row1)) :
    ∃ db2 row2, Repo.add_user db1 tid fn2 lc2 un2 r2 = .ok (db2, row2) ∧
      row2.telegram_id = tid ∧ row2.full_name = fn2 ∧ row2.user_name = un2 ∧
      row2 ∈ db2.users ∧
      db2.users.countP (fun u => u.telegram_id == tid) = 1 := by
  have hstate : (∃ w ∈ db1.users, w.telegram_id = tid) ∧
      db1.users.countP (fun u => u.telegram_id == tid) = 1 ∧
      (db1.users.map UserRow.telegram_id).Nodup := by
    cases hf : db.users.find? (fun u => u.telegram_id == tid) with
    | some old =>
        simp only [Repo.add_user, hf, Except.ok.injEq, Prod.mk.injEq] at h1
        have hold : old ∈ db.users := List.mem_of_find?_eq_some hf
        have holdid : old.telegram_id = tid := by simpa using List.find?_some hf
        have husers : db1.users = db.users.map fun u =>
            if u.telegram_id == tid then
              { u with user_name := un1, full_name := fn1 } else u := by
          rw [← h1.1]
        refine ⟨⟨{ old with user_name := un1, full_name := fn1 }, ?_, holdid⟩, ?_, ?_⟩
        · rw [husers]
          exact List.mem_map.mpr ⟨old, hold, by simp [holdid]⟩
        · rw [husers, countP_pk_map (upsert_preserves_pk tid un1 fn1 db.users)]
          subst holdid
          exact countP_pk_one hnodup hold
        · rw [husers, map_pk_ids (upsert_preserves_pk tid un1 fn1 db.users)]
          exact hnodup
    | none =>
        have habs : ∀ u ∈ db.users, ¬(u.telegram_id == tid) = true :=
          List.find?_eq_none.mp hf
        cases hok : Repo.referrerOk db.users tid r1 with
        | false =>
            simp only [Repo.add_user, hf, hok, Bool.false_eq_true, if_false] at h1
            exact absurd h1 (by simp)
        | true =>
            simp only [Repo.add_user, hf, hok, if_true, Except.ok.injEq,
              Prod.mk.injEq] at h1
            have husers : db1.users = db.users ++
                [{ telegram_id := tid, full_name := fn1, user_name := un1,
                   language_code := lc1, referrer_id := r1 }] := by
              rw [← h1.1]
            refine ⟨⟨{ telegram_id := tid, full_name := fn1, user_name := un1,
                       language_code := lc1, referrer_id := r1 }, ?_, rfl⟩, ?_, ?_⟩
            · rw [husers]
              exact List.mem_append.mpr (Or.inr (List.mem_singleton.mpr rfl))
            · rw [husers, List.countP_append]
              have h0 : db.users.countP (fun u => u.telegram_id == tid) = 0 := by
                rw [List.countP_eq_zero]
                exact habs
              simp [h0]
            · rw [husers, List.map_append, List.nodup_append]
              refine ⟨hnodup, List.nodup_singleton _, ?_⟩
              intro x hx hx1
              obtain ⟨u, hu, huid⟩ := List.mem_map.mp hx
              simp only [List.map_cons, List.map_nil, List.mem_singleton] at hx1
              exact habs u hu (by simp [huid, hx1])
  obtain ⟨⟨w, hw, hwid⟩, hcount1, hnodup1⟩ := hstate
  have hfind := find?_pk hnodup1 hw hwid
  have hre : Repo.add_user db1 tid fn2 lc2 un2 r2 = .ok
      ({ db1 with users := db1.users.map fun u =>
          if u.telegram_id == tid then
            { u with user_name := un2, full_name := fn2 } else u },
        { w with user_name := un2, full_name := fn2 }) := by
    simp only [Repo.add_user, hfind]
  refine ⟨_, _, hre, hwid, rfl, rfl, ?_, ?_⟩
  · exact List.mem_map.mpr ⟨w, hw, by simp [hwid]⟩
  · rw [countP_pk_map (upsert_preserves_pk tid un2 fn2 db1.users)]
    exact hcount1

/-- C1 witness: inserting user 1 twice into the example database through the
upsert succeeds both times; after the second call the returned row carries the
second call's full_name Y and user_name y and exactly one row with id 1 exists. -/
theorem add_user_upsert_second_call_witness :
    ∃ db2 row2, Repo.add_user dbC1mid 1 "Y" "de" (some "y") none = .ok (db2, row2) ∧
      row2.telegram_id = 1 ∧ row2.full_name = "Y" ∧ row2.user_name = some "y" ∧
      row2 ∈ db2.users ∧
      db2.users.countP (fun u => u.telegram_id == 1) = 1 := by
  exact add_user_upsert_second_call dbEx 1 "X" "fr" (some "x") none dbC1mid
    { telegram_id := 1, full_name := "X", user_name := some "x",
      language_code := "en", referrer_id := none }
    "Y" "de" (some "y") none (by decide) rfl

/-- C9: when add_user hits a primary-key conflict on a duplicate-free user table,
the pre-existing language_code and referrer_id of the conflicting row survive
unchanged, in the returned row and in every row of the table carrying that key,
whatever language_code and referrer_id arguments the call passed: only user_name
and full_name are overwritten. -/
theorem add_user_conflict_frame (db : DB) (tid : Int) (fn lc : String)
    (un : Option String) (r : Option Int) (u : UserRow)
    (hnodup : (db.users.map UserRow.telegram_id).Nodup)
    (hu : u ∈ db.users) (hid : u.telegram_id = tid) :
    ∃ db2 row2, Repo.add_user db tid fn lc un r = .ok (db2, row2) ∧
      row2.language_code = u.language_code ∧ row2.referrer_id = u.referrer_id ∧
      row2.full_name = fn ∧ row2.user_name = un ∧
      ∀ v ∈ db2.users, v.telegram_id = tid →
        v.language_code = u.language_code ∧ v.referrer_id = u.referrer_id := by
  have hfind := find?_pk hnodup hu hid
  have hre : Repo.add_user db tid fn lc un r = .ok
      ({ db with users := db.users.map fun w =>
          if w.telegram_id == tid then
            { w with user_name := un, full_name := fn } else w },
        { u with user_name := un, full_name := fn }) := by
    simp only [Repo.add_user, hfind]
  refine ⟨_, _, hre, rfl, rfl, rfl, rfl, ?_⟩
  intro v hv hvid
  obtain ⟨w, hw, hwv⟩ := List.mem_map.mp hv
  by_cases h : (w.telegram_id == tid) = true
  · have hweq : w = u := List.inj_on_of_nodup_map hnodup hw hu
      (by rw [(by simpa using h : w.telegram_id = tid), hid])
    rw [← hwv, if_pos h, hweq]
    exact ⟨rfl, rfl⟩
  · rw [← hwv, if_neg h] at hvid ⊢
    exact absurd (by simp [hvid]) h

/-- C9 witness: re-adding user 1 with a different language code and a bogus
referrer argument succeeds through the conflict branch and keeps the stored
language en and absent referrer, while taking the new full_name and user_name. -/
theorem add_user_conflict_frame_witness :
    ∃ db2 row2, Repo.add_user dbEx 1 "Zed" "xx" none (some 42) = .ok (db2, row2) ∧
      row2.language_code = userA.language_code ∧
      row2.referrer_id = userA.referrer_id ∧
      row2.full_name = "Zed" ∧ row2.user_name = none ∧
      ∀ v ∈ db2.users, v.telegram_id = 1 →
        v.language_code = userA.language_code ∧
        v.referrer_id = userA.referrer_id := by
  exact add_user_conflict_frame dbEx 1 "Zed" "xx" none (some 42) userA
    (by decide) (by decide) (by decide)

/-- C5 counterexample: with a single user and no line items, the aggregation at
threshold -1 returns nothing, although that user's summed line-item quantity, the
empty sum 0, is strictly greater than -1; the inner join produces no group for a
user without line items, so the claim read over all users fails at negative
thresholds. -/
theorem get_count_products_threshold_counterexample :
    Repo.get_count_of_products_greater_than_x_by_user dbC5 (-1) = [] ∧
    userA ∈ dbC5.users ∧
    Repo.sumQuantity (Repo.userJoinRows dbC5 userA) = 0 ∧
    (-1 : Int) < Repo.sumQuantity (Repo.userJoinRows dbC5 userA) := by
  refine ⟨by decide, by decide, by decide, by decide⟩

/-- C5 (amended): among users having at least one joined line item, the
aggregation with threshold x returns exactly those whose summed line-item
quantity is strictly greater than x, so a user whose sum equals x is excluded;
the sum is taken over all of the user's line items before the comparison, so the
filter acts on the per-user sum after grouping, not on individual rows. -/
theorem get_count_products_threshold (db : DB) (x : Int) :
    (∀ u ∈ db.users, Repo.userJoinRows db u ≠ [] →
      x < Repo.sumQuantity (Repo.userJoinRows db u) →
      (Repo.sumQuantity (Repo.userJoinRows db u), u.full_name) ∈
        Repo.get_count_of_products_greater_than_x_by_user db x) ∧
    (∀ p ∈ Repo.get_count_of_products_greater_than_x_by_user db x,
      ∃ u ∈ db.users,
        p = (Repo.sumQuantity (Repo.userJoinRows db u), u.full_name) ∧
        Repo.userJoinRows db u ≠ [] ∧
        x < Repo.sumQuantity (Repo.userJoinRows db u)) := by
  constructor
  · intro u hu hne hgt
    simp only [Repo.get_count_of_products_greater_than_x_by_user]
    refine List.mem_flatMap.mpr ⟨u, hu, ?_⟩
    rw [if_pos ⟨List.length_pos.mpr hne, hgt⟩]
    exact List.mem_singleton.mpr rfl
  · intro p hp
    simp only [Repo.get_count_of_products_greater_than_x_by_user] at hp
    obtain ⟨u, hu, hmem⟩ := List.mem_flatMap.mp hp
    by_cases h : 0 < (Repo.userJoinRows db u).length ∧
        x < Repo.sumQuantity (Repo.userJoinRows db u)
    · rw [if_pos h] at hmem
      exact ⟨u, hu, List.mem_singleton.mp hmem,
        List.length_pos.mp h.1, h.2⟩
    · rw [if_neg h] at hmem
      exact absurd hmem (List.not_mem_nil p)

/-- C5 witness: user 2 of the example database has one line item of quantity 3,
so at threshold 0 the aggregation returns the pair of its sum 3 and its name. -/
theorem get_count_products_threshold_witness :
    Repo.userJoinRows dbEx userB ≠ [] ∧
    (0 : Int) < Repo.sumQuantity (Repo.userJoinRows dbEx userB) ∧
    (Repo.sumQuantity (Repo.userJoinRows dbEx userB), userB.full_name) ∈
      Repo.get_count_of_products_greater_than_x_by_user dbEx 0 := by
  refine ⟨by decide, by decide,
    (get_count_products_threshold dbEx 0).1 userB (by decide) (by decide)
      (by decide)⟩

/-- Reversing the nesting order of four multiset binds preserves the result. -/
theorem multiset_bind4_reverse {α₁ α₂ α₃ α₄ γ : Type} (s₁ : Multiset α₁)
    (s₂ : Multiset α₂) (s₃ : Multiset α₃) (s₄ : Multiset α₄)
    (B : α₁ → α₂ → α₃ → α₄ → Multiset γ) :
    (s₁.bind fun a => s₂.bind fun b => s₃.bind fun c => s₄.bind fun d =>
      B a b c d) =
      s₄.bind fun d => s₃.bind fun c => s₂.bind fun b => s₁.bind fun a =>
        B a b c d := by
  calc
    (s₁.bind fun a => s₂.bind fun b => s₃.bind fun c => s₄.bind fun d =>
        B a b c d)
        = s₁.bind fun a => s₂.bind fun b => s₄.bind fun d => s₃.bind fun c =>
            B a b c d :=
      Multiset.bind_congr fun a _ => Multiset.bind_congr fun b _ =>
        Multiset.bind_bind s₃ s₄
    _ = s₁.bind fun a => s₄.bind fun d => s₂.bind fun b => s₃.bind fun c =>
          B a b c d :=
      Multiset.bind_congr fun a _ => Multiset.bind_bind s₂ s₄
    _ = s₄.bind fun d => s₁.bind fun a => s₂.bind fun b => s₃.bind fun c =>
          B a b c d :=
      Multiset.bind_bind s₁ s₄
    _ = s₄.bind fun d => s₁.bind fun a => s₃.bind fun c => s₂.bind fun b =>
          B a b c d :=
      Multiset.bind_congr fun d _ => Multiset.bind_congr fun a _ =>
        Multiset.bind_bind s₂ s₃
    _ = s₄.bind fun d => s₃.bind fun c => s₁.bind fun a => s₂.bind fun b =>
          B a b c d :=
      Multiset.bind_congr fun d _ => Multiset.bind_bind s₁ s₃
    _ = s₄.bind fun d => s₃.bind fun c => s₂.bind fun b => s₁.bind fun a =>
          B a b c d :=
      Multiset.bind_congr fun d _ => Multiset.bind_congr fun c _ =>
        Multiset.bind_bind s₁ s₂

/-- Coercing a conditional singleton list to a multiset. -/
theorem coe_ite_singleton (c : Prop) (inst : Decidable c) (x : JoinResultRow) :
    ((if c then [x] else [] : List JoinResultRow) : Multiset JoinResultRow) =
      if c then {x} else 0 := by
  split <;> rfl

/-- C4: for every user id and every database state, the relationship join query
and the join query written without relationships return the same multiset of
(product, order, user_name, quantity) rows. -/
theorem join_queries_same_multiset (db : DB) (tid : Int) :
    ((Repo.get_all_user_orders_relationships db tid) : Multiset JoinResultRow) =
      ((Repo.get_all_user_orders_no_relationships db tid) :
        Multiset JoinResultRow) := by
  simp only [Repo.get_all_user_orders_relationships,
    Repo.get_all_user_orders_no_relationships, ← Multiset.coe_bind,
    coe_ite_singleton]
  rw [multiset_bind4_reverse]
  refine Multiset.bind_congr fun p _ => Multiset.bind_congr fun op _ =>
    Multiset.bind_congr fun o _ => Multiset.bind_congr fun u _ => ?_
  exact if_congr
    ⟨fun h => ⟨h.2.2.2, h.2.2.1, h.2.1, h.1⟩,
     fun h => ⟨h.2.2.2, h.2.2.1, h.2.1, h.1⟩⟩ rfl rfl
